import Mathlib

/-!
Verification of the pm process-manager registry (VividCortex/pm).

This file shallowly embeds the journal-based `Proclist` of `pm.go` together
with the snapshot projections of `http.go`.  Go maps are modelled as
association lists with unique keys (insert overwrites, delete removes), a
`time.Now()` reading is an explicit `ts : Nat` argument, and panics are
modelled as explicit `Option PanicVal` results: an operation that would panic
in Go returns `some v` where `v` carries the panic payload, and `done` (whose
Go body receives `recover()`'s result and may re-panic) returns the re-raised
payload alongside the new registry state.
-/

namespace PM

/-- Association-list lookup, modelling Go's `m[id]` two-valued read. -/
def mapFind {α : Type} (id : String) : List (String × α) → Option α
  | [] => none
  | kv :: rest => if kv.1 = id then some kv.2 else mapFind id rest

/-- Association-list insert, modelling Go's `m[id] = v` (overwrite). -/
def mapInsert {α : Type} (id : String) (v : α) : List (String × α) → List (String × α)
  | [] => [(id, v)]
  | kv :: rest => if kv.1 = id then (id, v) :: rest else kv :: mapInsert id v rest

/-- Association-list removal, modelling Go's `delete(m, id)`. -/
def mapErase {α : Type} (id : String) : List (String × α) → List (String × α)
  | [] => []
  | kv :: rest => if kv.1 = id then mapErase id rest else kv :: mapErase id rest

/-- `journalEntry` from pm.go: one `(ts, status)` item of a task's journal. -/
structure journalEntry where
  ts : Nat
  status : String
deriving Repr, DecidableEq

/-- The anonymous `cancel` struct of `proc` in pm.go. -/
structure CancelState where
  isPending : Bool
  message : String
deriving Repr, DecidableEq

/-- `proc` from pm.go.  Attribute values are `interface{}` in Go and never
inspected by the registry; they are modelled as opaque strings. -/
structure proc where
  id : String
  attrs : List (String × String)
  journal : List journalEntry
  cancel : CancelState
deriving Repr, DecidableEq

/-- `ProclistOpts` from pm.go. -/
structure ProclistOpts where
  StopCancelPanic : Bool
deriving Repr, DecidableEq

/-- `Proclist` from pm.go: the registry map plus process-wide options. -/
structure Proclist where
  procs : List (String × proc)
  opts : ProclistOpts
deriving Repr, DecidableEq

/-- A Go panic payload: either the protocol's own `CancelErr` or any other
panic value (opaque). -/
inductive PanicVal where
  | cancelErr (message : String)
  | other (payload : String)
deriving Repr, DecidableEq

/-- `proc.addJournalEntry` from pm.go: push a `(ts, status)` entry at the back
of the journal. -/
def proc.addJournalEntry (p : proc) (ts : Nat) (status : String) : proc :=
  { p with journal := p.journal ++ [⟨ts, status⟩] }

/-- `proc.doCancel` from pm.go: build the `CancelErr` payload `"killed"` or
`"killed: <message>"` and panic with it. -/
def proc.doCancel (p : proc) : PanicVal :=
  .cancelErr (if p.cancel.message.length > 0 then
    "killed" ++ ": " ++ p.cancel.message else "killed")

/-- `Proclist.SetOptions` from pm.go. -/
def Proclist.SetOptions (pl : Proclist) (opts : ProclistOpts) : Proclist :=
  { pl with opts := opts }

/-- `Proclist.Start` from pm.go: create the record with its synthetic
`"init"` journal entry and store it in the map. -/
def Proclist.Start (pl : Proclist) (ts : Nat) (id : String)
    (attrs : List (String × String)) : Proclist :=
  let p : proc := { id := id, attrs := attrs, journal := [⟨ts, "init"⟩],
                    cancel := ⟨false, ""⟩ }
  { pl with procs := mapInsert id p pl.procs }

/-- `Proclist.Status` from pm.go: append the journal entry, then raise the
cancellation panic if a cancel is pending.  The returned state reflects the
append even when the panic is raised (the Go `proc` is mutated in place
before `doCancel` runs). -/
def Proclist.Status (pl : Proclist) (ts : Nat) (id status : String) :
    Proclist × Option PanicVal :=
  match mapFind id pl.procs with
  | some p =>
    let p := p.addJournalEntry ts status
    ({ pl with procs := mapInsert id p pl.procs },
      if p.cancel.isPending then some p.doCancel else none)
  | none => (pl, none)

/-- `Proclist.CheckCancel` from pm.go: checkpoint with no journal side
effect. -/
def Proclist.CheckCancel (pl : Proclist) (id : String) : Option PanicVal :=
  match mapFind id pl.procs with
  | some p => if p.cancel.isPending then some p.doCancel else none
  | none => none

/-- `Proclist.Kill` from pm.go: on the not-pending → pending transition set
the cancel state and append the synthetic journal entry; otherwise leave the
registry untouched. -/
def Proclist.Kill (pl : Proclist) (ts : Nat) (id message : String) : Proclist :=
  match mapFind id pl.procs with
  | some p =>
    if !p.cancel.isPending then
      let p := { p with cancel := ⟨true, message⟩ }
      let jentry := if message.length > 0 then
        "[cancel request: " ++ message ++ "]" else "[cancel request]"
      { pl with procs := mapInsert id (p.addJournalEntry ts jentry) pl.procs }
    else pl
  | none => pl

/-- `Proclist.done` from pm.go.  `e` is the result of `recover()`.  Returns
the new registry state, the final detached record (with its terminal journal
entry, as the Go code appends to the record object after removing it from the
map), and the payload re-raised by `panic(e)` (or `none` when `done` returns
normally). -/
def Proclist.done (pl : Proclist) (ts : Nat) (id : String)
    (e : Option PanicVal) : Proclist × Option proc × Option PanicVal :=
  match mapFind id pl.procs with
  | some p =>
    let pl1 := { pl with procs := mapErase id pl.procs }
    let stopPanic := pl.opts.StopCancelPanic
    match e with
    | some pv =>
      match pv with
      | .cancelErr m =>
        (pl1, some (p.addJournalEntry ts m),
          if !stopPanic then some pv else none)
      | .other x => (pl1, some (p.addJournalEntry ts "aborted"), some (.other x))
    | none => (pl1, some (p.addJournalEntry ts "ended"), none)
  | none =>
    let stopPanic := pl.opts.StopCancelPanic
    match e with
    | some pv =>
      match pv with
      | .cancelErr m =>
        (pl, none, if !stopPanic then some (.cancelErr m) else none)
      | .other x => (pl, none, some (.other x))
    | none => (pl, none, none)

/-- `JournalDetail` from types.go. -/
structure JournalDetail where
  Ts : Nat
  Status : String
deriving Repr, DecidableEq

/-- `AttrDetail` from types.go (value opaque, see `proc`). -/
structure AttrDetail where
  Name : String
  Value : String
deriving Repr, DecidableEq

/-- `ProcDetail` from types.go. -/
structure ProcDetail where
  Id : String
  Attrs : List AttrDetail
  ProcTm : Nat
  StatusTm : Nat
  Status : String
  Cancelling : Bool
deriving Repr, DecidableEq

/-- `Proclist.getJournal` from http.go: the full journal of one live record,
or the empty list when the id is unknown. -/
def Proclist.getJournal (pl : Proclist) (id : String) : List JournalDetail :=
  match mapFind id pl.procs with
  | none => []
  | some p => p.journal.map fun v => ⟨v.ts, v.status⟩

/-- `Proclist.getProcs` from http.go: the snapshot listing of all live
records.  `journal.Front()`/`.Back()` are total in Go only because every
record's journal is nonempty (it is created with the `"init"` entry); the
model uses `headD`/`getLastD` with an irrelevant default. -/
def Proclist.getProcs (pl : Proclist) : List ProcDetail :=
  pl.procs.map fun idp =>
    let p := idp.2
    let firstJEntry := p.journal.headD ⟨0, ""⟩
    let lastJEntry := p.journal.getLastD ⟨0, ""⟩
    { Id := idp.1,
      Attrs := p.attrs.map fun a => ⟨a.1, a.2⟩,
      ProcTm := firstJEntry.ts,
      StatusTm := lastJEntry.ts,
      Status := lastJEntry.status,
      Cancelling := p.cancel.isPending }

/-- A straight-line sequence of `Status` calls on one id (each element is the
`time.Now()` reading and the label of one call). -/
def applyStatuses (pl : Proclist) (id : String) :
    List (Nat × String) → Proclist
  | [] => pl
  | c :: rest => applyStatuses (pl.Status c.1 id c.2).1 id rest

namespace Final

/-!
The repository's final iteration of pm.go (per-task options) is not present
under src/; only its tests (`TestProclist`, which calls
`Start("req1", &ProcOpts{ForbidCancel: true}, attrs1)` and observes that a
subsequent `Kill`/`CheckCancel` does not cancel), its HTTP callers (which
compare `Kill`'s error result against `ErrForbidden`/not-found) and the
README mention it.  The definitions in this namespace model that missing
code from the spec.
-/

/-- Modelled from the spec: the per-task option set
`{ forbid-cancel, absorb-cancel-panic }` of the missing final pm.go
(`ProcOpts` in its tests), captured at creation time. -/
structure ProcOpts where
  ForbidCancel : Bool
  StopCancelPanic : Bool
deriving Repr, DecidableEq

/-- Modelled from the spec: a task record of the missing final pm.go; like
`PM.proc` but carrying its creation-time option snapshot. -/
structure proc where
  id : String
  attrs : List (String × String)
  journal : List PM.journalEntry
  cancel : PM.CancelState
  opts : ProcOpts
deriving Repr, DecidableEq

/-- Modelled from the spec: the registry of the missing final pm.go, holding
the task map and the process-wide default options. -/
structure Proclist where
  procs : List (String × proc)
  opts : ProcOpts
deriving Repr, DecidableEq

/-- Modelled from the spec: the error taxonomy surfaced by `Kill` in the
missing final pm.go (`ErrNoSuchProcess` / `ErrForbidden`, as its HTTP
callers name them). -/
inductive pmError where
  | ErrNoSuchProcess
  | ErrForbidden
deriving Repr, DecidableEq

/-- Modelled from the spec: `SetOptions` (the spec's `SetDefaults`) of the
missing final pm.go — replaces the process-wide defaults, effective for
subsequently created tasks only. -/
def Proclist.SetOptions (pl : Proclist) (opts : ProcOpts) : Proclist :=
  { pl with opts := opts }

/-- Modelled from the spec: `Start` of the missing final pm.go — captures the
caller-supplied option overrides, or a snapshot (copy) of the current
process-wide defaults when the caller passes none, and creates the record
with its `"init"` entry. -/
def Proclist.Start (pl : Proclist) (ts : Nat) (id : String)
    (opts : Option ProcOpts) (attrs : List (String × String)) : Proclist :=
  let o := match opts with
    | some o => o
    | none => pl.opts
  let p : proc := { id := id, attrs := attrs,
                    journal := [⟨ts, "init"⟩],
                    cancel := ⟨false, ""⟩, opts := o }
  { pl with procs := mapInsert id p pl.procs }

/-- Modelled from the spec: `Kill` of the missing final pm.go — not-found on
an unknown id; forbidden (cancel-state untouched, no journal entry) when the
task's captured options forbid cancellation; otherwise the idempotent
pending transition of `PM.Proclist.Kill`, returning success. -/
def Proclist.Kill (pl : Proclist) (ts : Nat) (id message : String) :
    Proclist × Option pmError :=
  match mapFind id pl.procs with
  | none => (pl, some .ErrNoSuchProcess)
  | some p =>
    if p.opts.ForbidCancel then (pl, some .ErrForbidden)
    else if !p.cancel.isPending then
      let p1 := { p with cancel := ⟨true, message⟩ }
      let jentry := if message.length > 0 then
        "[cancel request: " ++ message ++ "]" else "[cancel request]"
      let p2 := { p1 with journal := p1.journal ++ [⟨ts, jentry⟩] }
      ({ pl with procs := mapInsert id p2 pl.procs }, none)
    else (pl, none)

/-- Modelled from the spec: `done` of the missing final pm.go — identical to
`PM.Proclist.done` except that the absorb-cancel-panic decision for a live
task reads the task's creation-time option snapshot, not the current
process-wide defaults. -/
def Proclist.done (pl : Proclist) (ts : Nat) (id : String)
    (e : Option PanicVal) : Proclist × Option proc × Option PanicVal :=
  match mapFind id pl.procs with
  | some p =>
    let pl1 := { pl with procs := mapErase id pl.procs }
    let stopPanic := p.opts.StopCancelPanic
    match e with
    | some pv =>
      match pv with
      | .cancelErr m =>
        (pl1, some { p with journal := p.journal ++ [⟨ts, m⟩] },
          if !stopPanic then some pv else none)
      | .other x =>
        (pl1, some { p with journal := p.journal ++ [⟨ts, "aborted"⟩] },
          some (.other x))
    | none => (pl1, some { p with journal := p.journal ++ [⟨ts, "ended"⟩] }, none)
  | none =>
    match e with
    | some pv =>
      match pv with
      | .cancelErr m =>
        (pl, none, if !pl.opts.StopCancelPanic then some (.cancelErr m) else none)
      | .other x => (pl, none, some (.other x))
    | none => (pl, none, none)

end Final

/-! Concrete fixtures used by the witness theorems. -/

/-- A freshly started task record (no cancellation pending). -/
def pFresh : proc :=
  { id := "t1", attrs := [("host", "h")], journal := [⟨0, "init"⟩],
    cancel := ⟨false, ""⟩ }

/-- A task record with a cancellation pending (message `"bye"`). -/
def pPending : proc :=
  { id := "t2", attrs := [],
    journal := [⟨0, "init"⟩, ⟨1, "[cancel request: bye]"⟩],
    cancel := ⟨true, "bye"⟩ }

/-- A registry holding one fresh and one cancellation-pending task. -/
def plW : Proclist := { procs := [("t1", pFresh), ("t2", pPending)], opts := ⟨false⟩ }

/-- A task of the modelled final registry whose options allow cancellation. -/
def procAllowed : Final.proc :=
  { id := "t3", attrs := [], journal := [⟨0, "init"⟩],
    cancel := ⟨false, ""⟩, opts := ⟨false, false⟩ }

/-- A task of the modelled final registry whose options forbid cancellation. -/
def procGuarded : Final.proc :=
  { id := "t4", attrs := [], journal := [⟨0, "init"⟩],
    cancel := ⟨false, ""⟩, opts := ⟨true, false⟩ }

/-- A modelled final registry holding one cancellable and one
cancellation-forbidding task. -/
def plFinalW : Final.Proclist :=
  { procs := [("t3", procAllowed), ("t4", procGuarded)], opts := ⟨false, false⟩ }

/-! Lemmas about the association-list map operations. -/

theorem mapFind_insert_self {α : Type} (id : String) (v : α)
    (m : List (String × α)) : mapFind id (mapInsert id v m) = some v := by
  induction m with
  | nil => simp [mapInsert, mapFind]
  | cons kv rest ih =>
    by_cases h : kv.1 = id
    · simp [mapInsert, h, mapFind]
    · simp [mapInsert, h, mapFind, ih]

theorem mapFind_erase_self {α : Type} (id : String) (m : List (String × α)) :
    mapFind id (mapErase id m) = none := by
  induction m with
  | nil => simp [mapErase, mapFind]
  | cons kv rest ih =>
    by_cases h : kv.1 = id
    · simp [mapErase, h, ih]
    · simp [mapErase, h, mapFind, ih]

theorem mapFind_none_keys {α : Type} {id : String} {m : List (String × α)}
    (h : mapFind id m = none) : ∀ kv ∈ m, kv.1 ≠ id := by
  induction m with
  | nil => simp
  | cons kv rest ih =>
    intro x hx
    by_cases hk : kv.1 = id
    · simp [mapFind, hk] at h
    · simp only [mapFind, hk, if_neg, ite_false] at h
      cases hx with
      | head => exact hk
      | tail _ hx => exact ih h x hx

/-- C6: for every live task `id` and label, `Status id label` stores the
record with `(ts, label)` appended to its journal — also when the call goes
on to raise the cancellation interrupt — and raises the interrupt exactly
when the task's cancel-state is pending, so the label is recorded in the
journal even when the call interrupts the task. -/
theorem status_appends_before_interrupt (pl : Proclist) (ts : Nat)
    (id label : String) (p : proc) (hfind : mapFind id pl.procs = some p) :
    mapFind id (pl.Status ts id label).1.procs
        = some (p.addJournalEntry ts label) ∧
    (p.addJournalEntry ts label).journal = p.journal ++ [⟨ts, label⟩] ∧
    (pl.Status ts id label).2
        = (if p.cancel.isPending then some p.doCancel else none) := by
  refine ⟨?_, rfl, ?_⟩
  · simp [Proclist.Status, hfind, mapFind_insert_self]
  · simp [Proclist.Status, hfind, proc.addJournalEntry, proc.doCancel]

/-- Witness for `status_appends_before_interrupt` at the concrete registry
`plW`, task `"t1"`, label `"reading"`. -/
theorem status_appends_before_interrupt_witness :
    mapFind "t1" plW.procs = some pFresh ∧
    (mapFind "t1" (plW.Status 5 "t1" "reading").1.procs
        = some (pFresh.addJournalEntry 5 "reading") ∧
    (pFresh.addJournalEntry 5 "reading").journal
        = pFresh.journal ++ [⟨5, "reading"⟩] ∧
    (plW.Status 5 "t1" "reading").2
        = (if pFresh.cancel.isPending then some pFresh.doCancel else none)) :=
  ⟨rfl, status_appends_before_interrupt plW 5 "t1" "reading" pFresh rfl⟩

/-- C7: for every live task, the first `Kill` while not pending sets the
cancel-state to pending with the kill message and appends exactly one
journal entry, `"[cancel request]"` for the empty message and
`"[cancel request: <message>]"` otherwise; a `Kill` while already pending
leaves the whole registry unchanged. -/
theorem kill_idempotent_journal (pl : Proclist) (ts : Nat) (id message : String)
    (p : proc) (hfind : mapFind id pl.procs = some p) :
    (p.cancel.isPending = false →
      mapFind id (pl.Kill ts id message).procs = some
        { p with cancel := ⟨true, message⟩,
                 journal := p.journal ++ [⟨ts, if message.length > 0 then
                   "[cancel request: " ++ message ++ "]" else
                   "[cancel request]"⟩] }) ∧
    (p.cancel.isPending = true → pl.Kill ts id message = pl) := by
  constructor
  · intro hnp
    simp [Proclist.Kill, hfind, hnp, proc.addJournalEntry, mapFind_insert_self]
  · intro hp
    simp [Proclist.Kill, hfind, hp]

/-- Witness for `kill_idempotent_journal`: the first `Kill` on the fresh task
`"t1"` records the transition, and a `Kill` on the already-pending task
`"t2"` is a no-op. -/
theorem kill_idempotent_journal_witness :
    (mapFind "t1" plW.procs = some pFresh ∧
      pFresh.cancel.isPending = false ∧
      mapFind "t1" (plW.Kill 7 "t1" "bye").procs = some
        { pFresh with cancel := ⟨true, "bye"⟩,
                      journal := pFresh.journal ++ [⟨7, if ("bye" : String).length > 0 then
                        "[cancel request: " ++ "bye" ++ "]" else
                        "[cancel request]"⟩] }) ∧
    (mapFind "t2" plW.procs = some pPending ∧
      pPending.cancel.isPending = true ∧
      plW.Kill 7 "t2" "again" = plW) :=
  ⟨⟨rfl, rfl, (kill_idempotent_journal plW 7 "t1" "bye" pFresh rfl).1 rfl⟩,
   ⟨rfl, rfl, (kill_idempotent_journal plW 7 "t2" "again" pPending rfl).2 rfl⟩⟩

/-- C3: for every live task, `done` invoked with this task's own cancellation
condition (`CancelErr`) in flight records the terminal journal entry and
swallows the condition when `StopCancelPanic` (absorb-cancel-panic) is set,
re-raising it otherwise. -/
theorem done_cancel_absorption (pl : Proclist) (ts : Nat) (id m : String)
    (p : proc) (hfind : mapFind id pl.procs = some p) :
    (pl.done ts id (some (.cancelErr m))).2.1
        = some (p.addJournalEntry ts m) ∧
    (pl.done ts id (some (.cancelErr m))).2.2
        = (if pl.opts.StopCancelPanic then none else some (.cancelErr m)) := by
  constructor
  · simp [Proclist.done, hfind]
  · cases h : pl.opts.StopCancelPanic <;> simp [Proclist.done, hfind, h]

/-- Witness for `done_cancel_absorption`: with `StopCancelPanic` unset in
`plW`, `done` on `"t2"` unwinding from its own cancellation re-raises. -/
theorem done_cancel_absorption_witness :
    mapFind "t2" plW.procs = some pPending ∧
    ((plW.done 9 "t2" (some (.cancelErr "killed: bye"))).2.1
        = some (pPending.addJournalEntry 9 "killed: bye") ∧
    (plW.done 9 "t2" (some (.cancelErr "killed: bye"))).2.2
        = (if plW.opts.StopCancelPanic then none
           else some (.cancelErr "killed: bye"))) :=
  ⟨rfl, done_cancel_absorption plW 9 "t2" "killed: bye" pPending rfl⟩

/-- C4: for every live task, `done` invoked with an in-flight abnormal
condition that is not the protocol's `CancelErr` records the terminal
journal entry `"aborted"` and re-raises the original condition, for every
value of the registry options. -/
theorem done_unrelated_fault (pl : Proclist) (ts : Nat) (id x : String)
    (p : proc) (hfind : mapFind id pl.procs = some p) :
    (pl.done ts id (some (.other x))).2.1
        = some (p.addJournalEntry ts "aborted") ∧
    (pl.done ts id (some (.other x))).2.2 = some (.other x) := by
  constructor <;> simp [Proclist.done, hfind]

/-- Witness for `done_unrelated_fault` at `plW`, task `"t1"`, an unrelated
fault payload. -/
theorem done_unrelated_fault_witness :
    mapFind "t1" plW.procs = some pFresh ∧
    ((plW.done 9 "t1" (some (.other "boom"))).2.1
        = some (pFresh.addJournalEntry 9 "aborted") ∧
    (plW.done 9 "t1" (some (.other "boom"))).2.2 = some (.other "boom")) :=
  ⟨rfl, done_unrelated_fault plW 9 "t1" "boom" pFresh rfl⟩

/-- C5: cancellation is level-triggered.  For a live task whose cancel-state
is pending: every `Status` and every `CheckCancel` raises the cancellation
interrupt, whose payload carries the kill message; `Status`, `Kill` and
`SetOptions` keep the task live with its pending cancel-state unchanged
(`CheckCancel` and the projections return no new state at all); hence a
checkpoint performed after an earlier absorbed interrupt raises the
interrupt again. -/
theorem cancel_level_triggered (pl : Proclist) (id : String) (p : proc)
    (hfind : mapFind id pl.procs = some p)
    (hpend : p.cancel.isPending = true) :
    (∀ ts label, (pl.Status ts id label).2 = some p.doCancel) ∧
    pl.CheckCancel id = some p.doCancel ∧
    p.doCancel = .cancelErr (if p.cancel.message.length > 0 then
      "killed" ++ ": " ++ p.cancel.message else "killed") ∧
    (∀ ts label, mapFind id (pl.Status ts id label).1.procs
        = some (p.addJournalEntry ts label) ∧
      (p.addJournalEntry ts label).cancel = p.cancel) ∧
    (∀ ts message, ∃ q, mapFind id (pl.Kill ts id message).procs = some q ∧
      q.cancel = p.cancel) ∧
    (∀ opts, mapFind id (pl.SetOptions opts).procs = some p) ∧
    (∀ ts label, (pl.Status ts id label).1.CheckCancel id = some p.doCancel) := by
  refine ⟨?_, ?_, rfl, ?_, ?_, ?_, ?_⟩
  · intro ts label
    simp [Proclist.Status, hfind, proc.addJournalEntry, proc.doCancel, hpend]
  · simp [Proclist.CheckCancel, hfind, hpend]
  · intro ts label
    exact ⟨by simp [Proclist.Status, hfind, mapFind_insert_self], rfl⟩
  · intro ts message
    refine ⟨p, ?_, rfl⟩
    simp [Proclist.Kill, hfind, hpend]
  · intro opts
    simpa [Proclist.SetOptions] using hfind
  · intro ts label
    simp [Proclist.Status, hfind, Proclist.CheckCancel, mapFind_insert_self,
      proc.addJournalEntry, proc.doCancel, hpend]

/-- Witness for `cancel_level_triggered` at the pending task `"t2"` of `plW`. -/
theorem cancel_level_triggered_witness :
    mapFind "t2" plW.procs = some pPending ∧
    pPending.cancel.isPending = true ∧
    ((∀ ts label, (plW.Status ts "t2" label).2 = some pPending.doCancel) ∧
    plW.CheckCancel "t2" = some pPending.doCancel ∧
    pPending.doCancel = .cancelErr (if pPending.cancel.message.length > 0 then
      "killed" ++ ": " ++ pPending.cancel.message else "killed") ∧
    (∀ ts label, mapFind "t2" (plW.Status ts "t2" label).1.procs
        = some (pPending.addJournalEntry ts label) ∧
      (pPending.addJournalEntry ts label).cancel = pPending.cancel) ∧
    (∀ ts message, ∃ q, mapFind "t2" (plW.Kill ts "t2" message).procs = some q ∧
      q.cancel = pPending.cancel) ∧
    (∀ opts, mapFind "t2" (plW.SetOptions opts).procs = some pPending) ∧
    (∀ ts label, (plW.Status ts "t2" label).1.CheckCancel "t2"
        = some pPending.doCancel)) :=
  ⟨rfl, rfl, cancel_level_triggered plW "t2" pPending rfl rfl⟩

/-- C9: for every live task, `done` with no abnormal condition in flight
returns normally, appends the terminal `"ended"` entry to the detached
record, removes the id from the registry map, and the id no longer appears
in the `getProcs` snapshot listing. -/
theorem done_normal_ended_removes (pl : Proclist) (ts : Nat) (id : String)
    (p : proc) (hfind : mapFind id pl.procs = some p) :
    (pl.done ts id none).2.1 = some (p.addJournalEntry ts "ended") ∧
    (p.addJournalEntry ts "ended").journal = p.journal ++ [⟨ts, "ended"⟩] ∧
    (pl.done ts id none).2.2 = none ∧
    mapFind id (pl.done ts id none).1.procs = none ∧
    (∀ d ∈ (pl.done ts id none).1.getProcs, d.Id ≠ id) := by
  refine ⟨?_, rfl, ?_, ?_, ?_⟩
  · simp [Proclist.done, hfind]
  · simp [Proclist.done, hfind]
  · simp [Proclist.done, hfind, mapFind_erase_self]
  · intro d hd
    have hprocs : (pl.done ts id none).1.procs = mapErase id pl.procs := by
      simp [Proclist.done, hfind]
    simp only [Proclist.getProcs, List.mem_map] at hd
    rw [hprocs] at hd
    obtain ⟨kv, hkv, rfl⟩ := hd
    exact mapFind_none_keys (mapFind_erase_self id pl.procs) kv hkv

/-- Witness for `done_normal_ended_removes` at `plW`, task `"t1"`. -/
theorem done_normal_ended_removes_witness :
    mapFind "t1" plW.procs = some pFresh ∧
    ((plW.done 9 "t1" none).2.1 = some (pFresh.addJournalEntry 9 "ended") ∧
    (pFresh.addJournalEntry 9 "ended").journal
        = pFresh.journal ++ [⟨9, "ended"⟩] ∧
    (plW.done 9 "t1" none).2.2 = none ∧
    mapFind "t1" (plW.done 9 "t1" none).1.procs = none ∧
    (∀ d ∈ (plW.done 9 "t1" none).1.getProcs, d.Id ≠ "t1")) :=
  ⟨rfl, done_normal_ended_removes plW 9 "t1" pFresh rfl⟩

/-- C10: `done` on an identifier that is not in the registry leaves the
registry unchanged and returns no detached record; with no condition in
flight it is a silent no-op, an in-flight `CancelErr` is swallowed exactly
when `StopCancelPanic` is set, and every other in-flight condition is
re-raised unconditionally. -/
theorem done_absent_id (pl : Proclist) (ts : Nat) (id : String)
    (hfind : mapFind id pl.procs = none) :
    (∀ e, (pl.done ts id e).1 = pl ∧ (pl.done ts id e).2.1 = none) ∧
    (pl.done ts id none).2.2 = none ∧
    (∀ m, (pl.done ts id (some (.cancelErr m))).2.2
        = (if pl.opts.StopCancelPanic then none else some (.cancelErr m))) ∧
    (∀ x, (pl.done ts id (some (.other x))).2.2 = some (.other x)) := by
  refine ⟨?_, ?_, ?_, ?_⟩
  · intro e
    rcases e with _ | pv
    · simp [Proclist.done, hfind]
    · cases pv <;> cases h : pl.opts.StopCancelPanic <;>
        simp [Proclist.done, hfind, h]
  · simp [Proclist.done, hfind]
  · intro m
    cases h : pl.opts.StopCancelPanic <;> simp [Proclist.done, hfind, h]
  · intro x
    simp [Proclist.done, hfind]

/-- Witness for `done_absent_id` at `plW` and the unknown id `"ghost"`. -/
theorem done_absent_id_witness :
    mapFind "ghost" plW.procs = none ∧
    ((∀ e, (plW.done 3 "ghost" e).1 = plW ∧ (plW.done 3 "ghost" e).2.1 = none) ∧
    (plW.done 3 "ghost" none).2.2 = none ∧
    (∀ m, (plW.done 3 "ghost" (some (.cancelErr m))).2.2
        = (if plW.opts.StopCancelPanic then none else some (.cancelErr m))) ∧
    (∀ x, (plW.done 3 "ghost" (some (.other x))).2.2 = some (.other x))) :=
  ⟨rfl, done_absent_id plW 3 "ghost" rfl⟩

/-- Invariant for straight-line `Status` sequences: each call appends its
`(ts, label)` pair to the tracked task's journal and leaves the cancel-state
alone. -/
theorem applyStatuses_find (id : String) (calls : List (Nat × String)) :
    ∀ (pl : Proclist) (p : proc), mapFind id pl.procs = some p →
      ∃ q, mapFind id (applyStatuses pl id calls).procs = some q ∧
        q.journal = p.journal
          ++ calls.map (fun c => (⟨c.1, c.2⟩ : journalEntry)) ∧
        q.cancel = p.cancel := by
  induction calls with
  | nil =>
    intro pl p h
    exact ⟨p, h, by simp, rfl⟩
  | cons c rest ih =>
    intro pl p h
    have hstep : (pl.Status c.1 id c.2).1.procs
        = mapInsert id (p.addJournalEntry c.1 c.2) pl.procs := by
      simp [Proclist.Status, h]
    obtain ⟨q, hq, hj, hc⟩ := ih (pl.Status c.1 id c.2).1
      (p.addJournalEntry c.1 c.2)
      (by rw [hstep]; exact mapFind_insert_self id _ pl.procs)
    refine ⟨q, by simpa [applyStatuses] using hq, ?_, ?_⟩
    · simp [hj, proc.addJournalEntry]
    · simpa [proc.addJournalEntry] using hc

/-- C8: after `Start(id)`, the journal projection of `id` holds exactly one
entry, labeled `"init"`; and after any straight-line sequence of `Status`
calls with labels `L1..Ln` (no intervening `Kill` or `Done`), it is exactly
`init, L1, ..., Ln` in call order with the supplied timestamps. -/
theorem history_init_statuses (pl : Proclist) (ts : Nat) (id : String)
    (attrs : List (String × String)) (calls : List (Nat × String)) :
    (pl.Start ts id attrs).getJournal id = [⟨ts, "init"⟩] ∧
    (applyStatuses (pl.Start ts id attrs) id calls).getJournal id
      = ⟨ts, "init"⟩ :: calls.map (fun c => (⟨c.1, c.2⟩ : JournalDetail)) := by
  have hstart : mapFind id (pl.Start ts id attrs).procs
      = some { id := id, attrs := attrs, journal := [⟨ts, "init"⟩],
               cancel := ⟨false, ""⟩ } := by
    simp [Proclist.Start, mapFind_insert_self]
  constructor
  · simp [Proclist.getJournal, hstart]
  · obtain ⟨q, hq, hj, hc⟩ := applyStatuses_find id calls (pl.Start ts id attrs)
      _ hstart
    simp [Proclist.getJournal, hq, hj]

/-- C1: in the modelled final registry, `Kill` returns `ErrNoSuchProcess`
when the id is not live, returns `ErrForbidden` — leaving the whole registry,
and in particular the task's cancel-state and journal, untouched — when the
task's captured options forbid cancellation, and succeeds (no error) when
the id is live and cancellation is not forbidden. -/
theorem kill_error_conditions (pl : Final.Proclist) (ts : Nat)
    (id message : String) :
    (mapFind id pl.procs = none →
      pl.Kill ts id message = (pl, some .ErrNoSuchProcess)) ∧
    (∀ p : Final.proc, mapFind id pl.procs = some p →
      p.opts.ForbidCancel = true →
      pl.Kill ts id message = (pl, some .ErrForbidden)) ∧
    (∀ p : Final.proc, mapFind id pl.procs = some p →
      p.opts.ForbidCancel = false →
      (pl.Kill ts id message).2 = none) := by
  refine ⟨?_, ?_, ?_⟩
  · intro h
    simp [Final.Proclist.Kill, h]
  · intro p h hforbid
    simp [Final.Proclist.Kill, h, hforbid]
  · intro p h hallow
    cases hp : p.cancel.isPending <;>
      simp [Final.Proclist.Kill, h, hallow, hp]

/-- Witness for `kill_error_conditions` at `plFinalW`: an unknown id, the
cancellation-forbidding task `"t4"`, and the cancellable task `"t3"`. -/
theorem kill_error_conditions_witness :
    (mapFind "ghost" plFinalW.procs = none ∧
      Final.Proclist.Kill plFinalW 2 "ghost" "m"
        = (plFinalW, some .ErrNoSuchProcess)) ∧
    (mapFind "t4" plFinalW.procs = some procGuarded ∧
      procGuarded.opts.ForbidCancel = true ∧
      Final.Proclist.Kill plFinalW 2 "t4" "m"
        = (plFinalW, some .ErrForbidden)) ∧
    (mapFind "t3" plFinalW.procs = some procAllowed ∧
      procAllowed.opts.ForbidCancel = false ∧
      (Final.Proclist.Kill plFinalW 2 "t3" "m").2 = none) :=
  ⟨⟨rfl, (kill_error_conditions plFinalW 2 "ghost" "m").1 rfl⟩,
   ⟨rfl, rfl,
     (kill_error_conditions plFinalW 2 "t4" "m").2.1 procGuarded rfl rfl⟩,
   ⟨rfl, rfl,
     (kill_error_conditions plFinalW 2 "t3" "m").2.2 procAllowed rfl rfl⟩⟩

/-- C2: in the modelled final registry, the options governing a task's
finalization are the ones captured at `Start` — a copy of the then-current
process-wide defaults, or the caller-supplied overrides.  For a task started
before a `SetOptions` call, the absorb-cancel-panic behaviour applied at its
`done` is the `StopCancelPanic` value in effect at its `Start`, whatever the
later process-wide value is. -/
theorem opts_captured_at_start (pl : Final.Proclist) (ts ts2 : Nat)
    (id m : String) (attrs : List (String × String))
    (newOpts : Final.ProcOpts) :
    ((((pl.Start ts id none attrs).SetOptions newOpts).done ts2 id
        (some (.cancelErr m))).2.2
      = (if pl.opts.StopCancelPanic then none else some (.cancelErr m))) ∧
    (∀ o : Final.ProcOpts,
      (((pl.Start ts id (some o) attrs).SetOptions newOpts).done ts2 id
          (some (.cancelErr m))).2.2
        = (if o.StopCancelPanic then none else some (.cancelErr m))) := by
  constructor
  · cases h : pl.opts.StopCancelPanic <;>
      simp [Final.Proclist.Start, Final.Proclist.SetOptions,
        Final.Proclist.done, mapFind_insert_self, h]
  · intro o
    cases h : o.StopCancelPanic <;>
      simp [Final.Proclist.Start, Final.Proclist.SetOptions,
        Final.Proclist.done, mapFind_insert_self, h]

end PM
